import Mathlib

/-!
Verification of the permission-service core: the permission Controller
(create/upsert, delete, queries, liveness probe) and the health-check
worker loop from `server/server.go`.

The Controller implementation (the `permission` package) is not present in
the sources; its operations are modelled from the specification's contract.
The health worker and its configuration defaults are embedded from
`server/server.go`.
-/

namespace PermissionService

/-- Role enum from the proto definition: NONE = 0, WRITE = 1, READ = 2.
An unordered categorical tag (no role implies another). -/
inductive Role where
  | NONE
  | WRITE
  | READ
deriving DecidableEq, Repr

/-- A permission record, per the proto `PermissionObject` message:
(id, fileID, userID, role, creator). The `id` is an abstract unique
identifier assigned by the store on creation; we model it as a `Nat`. -/
structure Permission where
  id : Nat
  fileID : String
  userID : String
  role : Role
  creator : String
deriving DecidableEq, Repr

/-- Modelled from the spec: the persistent Store owned by the `permission`
package (absent from the sources). It holds the permission records plus a
counter from which fresh ids are assigned. -/
structure Store where
  records : List Permission
  nextID : Nat
deriving DecidableEq, Repr

/-- The empty store: no records, ids start at 0. -/
def emptyStore : Store := ⟨[], 0⟩

/-- Error taxonomy of the Controller contract (the cases the claims need):
`notFound` and `alreadyExists` carrying the existing record's identity. -/
inductive CtrlError where
  | notFound
  | alreadyExists (existingID : Nat)
deriving DecidableEq, Repr

/-- Does a record match the composite key (fileID, userID)? -/
def matchKey (fileID userID : String) (p : Permission) : Bool :=
  decide (p.fileID = fileID ∧ p.userID = userID)

/-- Modelled from the spec: the store's `findOne(fileID, userID)` lookup
(the `permission` package's Mongo store is absent from the sources). -/
def findPermission (s : Store) (fileID userID : String) : Option Permission :=
  s.records.find? (matchKey fileID userID)

/-- Replace the role of the record matching (fileID, userID), leaving every
other field and every other record untouched. -/
def overrideRole (fileID userID : String) (role : Role) (q : Permission) : Permission :=
  if matchKey fileID userID q then { q with role := role } else q

/-- Modelled from the spec: `CreatePermission(fileID, userID, role, creator,
override)` of the Controller (the `permission` package implementation is
absent from the sources). If no record exists for the pair, insert a fresh
record; if one exists and `override` is false, fail with `AlreadyExists`
carrying the existing record's identity; if one exists and `override` is
true, replace its role only. -/
def CreatePermission (s : Store) (fileID userID : String) (role : Role)
    (creator : String) (override : Bool) : Except CtrlError (Permission × Store) :=
  match findPermission s fileID userID with
  | none =>
    let newPerm : Permission := ⟨s.nextID, fileID, userID, role, creator⟩
    Except.ok (newPerm, ⟨newPerm :: s.records, s.nextID + 1⟩)
  | some p =>
    if override then
      Except.ok ({ p with role := role },
        ⟨s.records.map (overrideRole fileID userID role), s.nextID⟩)
    else
      Except.error (CtrlError.alreadyExists p.id)

/-- Arguments of one CreatePermission call. -/
structure CreateArgs where
  fileID : String
  userID : String
  role : Role
  creator : String
  override : Bool

/-- The store state after a CreatePermission call: the new state on
success, the unchanged state on error. -/
def applyCreate (s : Store) (a : CreateArgs) : Store :=
  match CreatePermission s a.fileID a.userID a.role a.creator a.override with
  | Except.ok (_, s') => s'
  | Except.error _ => s

/-- Modelled from the spec: `DeletePermission(fileID, userID)` of the
Controller (implementation absent from the sources). Removes the matching
record and returns its prior value; fails with `NotFound` if absent. -/
def DeletePermission (s : Store) (fileID userID : String) :
    Except CtrlError (Permission × Store) :=
  match findPermission s fileID userID with
  | none => Except.error CtrlError.notFound
  | some p =>
    Except.ok (p, ⟨s.records.filter (fun q => ! matchKey fileID userID q), s.nextID⟩)

/-- The store state after a DeletePermission call: the new state on
success, the unchanged state on error. -/
def deleteStep (s : Store) (fileID userID : String) : Store :=
  match DeletePermission s fileID userID with
  | Except.ok (_, s') => s'
  | Except.error _ => s

/-- Modelled from the spec: `GetPermission(fileID, userID)` of the
Controller (implementation absent from the sources). Exact lookup, fails
with `NotFound` if absent. -/
def GetPermission (s : Store) (fileID userID : String) : Except CtrlError Permission :=
  match findPermission s fileID userID with
  | none => Except.error CtrlError.notFound
  | some p => Except.ok p

/-- Per-file query result entry, per the proto
`GetFilePermissionsResponse.UserRole` message. -/
structure UserRole where
  userID : String
  role : Role
  creator : String
deriving DecidableEq, Repr

/-- Modelled from the spec: `GetFilePermissions(fileID)` of the Controller
(implementation absent from the sources). Every record of the file, as
(userID, role, creator); empty list when none. -/
def GetFilePermissions (s : Store) (fileID : String) : List UserRole :=
  (s.records.filter (fun p => decide (p.fileID = fileID))).map
    (fun p => ⟨p.userID, p.role, p.creator⟩)

/-- Modelled from the spec: `IsPermitted(fileID, userID, role)` of the
Controller (implementation absent from the sources). True iff a record
exists for the pair whose stored role equals exactly the requested role. -/
def IsPermitted (s : Store) (fileID userID : String) (role : Role) : Bool :=
  match findPermission s fileID userID with
  | none => false
  | some p => decide (p.role = role)

/-- Modelled from the spec: `DeleteFilePermissions(fileID)` of the
Controller (implementation absent from the sources). Removes every record
of the file and returns the removed records; no error when none exist. -/
def DeleteFilePermissions (s : Store) (fileID : String) : List Permission × Store :=
  (s.records.filter (fun p => decide (p.fileID = fileID)),
   ⟨s.records.filter (fun p => ! decide (p.fileID = fileID)), s.nextID⟩)

/-- Outcome of one liveness probe round trip to the Store: the store
answers after some latency (in seconds), or the round trip errors. A
timeout is an answer whose latency exceeds the allowed bound. -/
inductive StoreProbe where
  | answered (latencySecs : Nat)
  | errored
deriving DecidableEq, Repr

/-- Modelled from the spec: `HealthCheck(timeout)` of the Controller
(implementation absent from the sources). Returns a plain boolean — true
only when the store answers within the timeout; any error or timeout
yields false. It never raises: its result type is `Bool`, not `Except`. -/
def HealthCheck (timeoutSecs : Nat) (probe : StoreProbe) : Bool :=
  match probe with
  | StoreProbe.answered l => decide (l ≤ timeoutSecs)
  | StoreProbe.errored => false

/-- The two published serving states of the gRPC health protocol. -/
inductive ServingStatus where
  | serving
  | notServing
deriving DecidableEq, Repr

/-- `healthServer.SetServingStatus` from `server/server.go`: overwrites the
published status register unconditionally, whatever it held before. -/
def setServingStatus (st : ServingStatus) (_ : Option ServingStatus) :
    Option ServingStatus :=
  some st

/-- The published status register after `n` iterations of
`healthCheckWorker` (`server/server.go`), given the boolean result of the
HealthCheck probe on each iteration. The register starts with no status
published by the worker; each iteration publishes SERVING on a true probe
and NOT_SERVING on a false one via `setServingStatus`. -/
def statusAfter (probes : Nat → Bool) : Nat → Option ServingStatus
  | 0 => none
  | n + 1 =>
    setServingStatus
      (if probes n then ServingStatus.serving else ServingStatus.notServing)
      (statusAfter probes n)

/-- Configuration read by `server/server.go`: the Mongo ping timeout
(seconds) passed to HealthCheck and the health-check loop interval
(seconds). -/
structure WorkerConfig where
  pingTimeoutSecs : Nat
  healthCheckInterval : Nat
deriving DecidableEq, Repr

/-- The defaults set by `init()` in `server/server.go`:
`mongo_client_ping_timeout` = 10, `health_check_interval` = 3. -/
def defaultConfig : WorkerConfig := ⟨10, 3⟩

/-- Observable actions of the health worker loop. -/
inductive WEvent where
  | probe (timeoutSecs : Nat)
  | publish (st : ServingStatus)
  | sleep (secs : Nat)
deriving DecidableEq, Repr

/-- One iteration of the `healthCheckWorker` loop body
(`server/server.go`): probe the store with the configured ping timeout,
publish the resulting status, then sleep for the configured interval. -/
def iterEvents (cfg : WorkerConfig) (probes : Nat → Bool) (n : Nat) : List WEvent :=
  [WEvent.probe cfg.pingTimeoutSecs,
   WEvent.publish (if probes n then ServingStatus.serving else ServingStatus.notServing),
   WEvent.sleep cfg.healthCheckInterval]

/-- The event trace of the first `n` iterations of the worker loop. The
loop in `server/server.go` is `for { ... }` with no exit, so the trace is
defined for every `n`: every iteration occurs. -/
def workerTrace (cfg : WorkerConfig) (probes : Nat → Bool) : Nat → List WEvent
  | 0 => []
  | n + 1 => workerTrace cfg probes n ++ iterEvents cfg probes n

/-- The uniqueness invariant: no two records of the store share the
composite key (fileID, userID). -/
def UniqueKeys (s : Store) : Prop :=
  s.records.Pairwise (fun p q => ¬(p.fileID = q.fileID ∧ p.userID = q.userID))

theorem matchKey_iff {fileID userID : String} {p : Permission} :
    matchKey fileID userID p = true ↔ p.fileID = fileID ∧ p.userID = userID := by
  simp [matchKey]

theorem overrideRole_fileID (fileID userID : String) (role : Role) (q : Permission) :
    (overrideRole fileID userID role q).fileID = q.fileID := by
  unfold overrideRole; split <;> rfl

theorem overrideRole_userID (fileID userID : String) (role : Role) (q : Permission) :
    (overrideRole fileID userID role q).userID = q.userID := by
  unfold overrideRole; split <;> rfl

theorem overrideRole_id (fileID userID : String) (role : Role) (q : Permission) :
    (overrideRole fileID userID role q).id = q.id := by
  unfold overrideRole; split <;> rfl

theorem overrideRole_creator (fileID userID : String) (role : Role) (q : Permission) :
    (overrideRole fileID userID role q).creator = q.creator := by
  unfold overrideRole; split <;> rfl

/-- In a store with unique keys, two records sharing the composite key are
the same record. -/
theorem key_eq_of_uniqueKeys {l : List Permission}
    (hl : l.Pairwise (fun p q => ¬(p.fileID = q.fileID ∧ p.userID = q.userID)))
    {p q : Permission} (hp : p ∈ l) (hq : q ∈ l)
    (hf : p.fileID = q.fileID) (hu : p.userID = q.userID) : p = q := by
  induction l with
  | nil => cases hp
  | cons a t ih =>
    rw [List.pairwise_cons] at hl
    obtain ⟨ha, ht⟩ := hl
    cases hp with
    | head =>
      cases hq with
      | head => rfl
      | tail _ hq' => exact absurd ⟨hf, hu⟩ (ha q hq')
    | tail _ hp' =>
      cases hq with
      | head => exact absurd ⟨hf.symm, hu.symm⟩ (ha p hp')
      | tail _ hq' => exact ih ht hp' hq'

/-- One CreatePermission call preserves the uniqueness invariant. -/
theorem applyCreate_uniqueKeys {s : Store} (h : UniqueKeys s) (a : CreateArgs) :
    UniqueKeys (applyCreate s a) := by
  unfold applyCreate CreatePermission
  cases hfind : findPermission s a.fileID a.userID with
  | none =>
    simp only [UniqueKeys]
    refine List.pairwise_cons.mpr ⟨?_, h⟩
    intro q hq hkey
    have hnone := List.find?_eq_none.mp hfind q hq
    exact hnone (matchKey_iff.mpr ⟨hkey.1.symm, hkey.2.symm⟩)
  | some p =>
    cases hov : a.override with
    | false => simpa using h
    | true =>
      simp only [UniqueKeys, if_true]
      rw [List.pairwise_map]
      refine h.imp ?_
      intro x y hxy
      rw [overrideRole_fileID, overrideRole_userID, overrideRole_fileID,
        overrideRole_userID]
      exact hxy

/-- C1: after any sequence of CreatePermission calls (with any override
flags) starting from the empty store, at most one Permission record exists
per (fileID, userID) pair: creation behaves as an upsert keyed on the
composite key, never as a blind insert producing duplicates. -/
theorem createPermission_unique_per_key (calls : List CreateArgs) :
    UniqueKeys (calls.foldl applyCreate emptyStore) := by
  have gen : ∀ (cs : List CreateArgs) (s : Store),
      UniqueKeys s → UniqueKeys (cs.foldl applyCreate s) := by
    intro cs
    induction cs with
    | nil => intro s hs; exact hs
    | cons c t ih =>
      intro s hs
      exact ih _ (applyCreate_uniqueKeys hs c)
  exact gen calls emptyStore List.Pairwise.nil

/-- C2: when a record already exists for (fileID, userID),
CreatePermission with override = false fails with AlreadyExists carrying
the existing record's identity, and the store is left unchanged by the
failed call. -/
theorem createPermission_no_override_fails (s : Store) (fileID userID : String)
    (role : Role) (creator : String) (p : Permission)
    (h : findPermission s fileID userID = some p) :
    CreatePermission s fileID userID role creator false =
      Except.error (CtrlError.alreadyExists p.id) ∧
    applyCreate s ⟨fileID, userID, role, creator, false⟩ = s := by
  constructor
  · simp [CreatePermission, h]
  · simp [applyCreate, CreatePermission, h]

/-- C2 witness: on a store holding (0, "f", "u", WRITE, "c1"), creating
again without override fails with AlreadyExists id 0 and leaves the store
unchanged. -/
theorem createPermission_no_override_fails_witness :
    CreatePermission ⟨[⟨0, "f", "u", Role.WRITE, "c1"⟩], 1⟩ "f" "u" Role.READ "c2" false =
      Except.error (CtrlError.alreadyExists 0) ∧
    applyCreate ⟨[⟨0, "f", "u", Role.WRITE, "c1"⟩], 1⟩ ⟨"f", "u", Role.READ, "c2", false⟩ =
      ⟨[⟨0, "f", "u", Role.WRITE, "c1"⟩], 1⟩ :=
  createPermission_no_override_fails ⟨[⟨0, "f", "u", Role.WRITE, "c1"⟩], 1⟩
    "f" "u" Role.READ "c2" ⟨0, "f", "u", Role.WRITE, "c1"⟩ (by decide)

/-- C3: when a record already exists for (fileID, userID),
CreatePermission with override = true succeeds and changes only the role:
the returned record keeps the existing id and creator, the result does not
depend on the creator argument, every stored record keeps its id, creator,
fileID and userID, and records not matching the key are untouched. -/
theorem createPermission_override_role_only (s : Store) (fileID userID : String)
    (role : Role) (creator : String) (p : Permission)
    (h : findPermission s fileID userID = some p) :
    CreatePermission s fileID userID role creator true =
      Except.ok ({ p with role := role },
        ⟨s.records.map (overrideRole fileID userID role), s.nextID⟩) ∧
    (Permission.mk p.id p.fileID p.userID role p.creator).id = p.id ∧
    (Permission.mk p.id p.fileID p.userID role p.creator).creator = p.creator ∧
    (∀ creator' : String,
      CreatePermission s fileID userID role creator true =
        CreatePermission s fileID userID role creator' true) ∧
    (∀ q ∈ (applyCreate s ⟨fileID, userID, role, creator, true⟩).records,
      ∃ q0 ∈ s.records, q.id = q0.id ∧ q.creator = q0.creator ∧
        q.fileID = q0.fileID ∧ q.userID = q0.userID) ∧
    (∀ q ∈ s.records, matchKey fileID userID q = false →
      q ∈ (applyCreate s ⟨fileID, userID, role, creator, true⟩).records) := by
  refine ⟨by simp [CreatePermission, h], rfl, rfl, ?_, ?_, ?_⟩
  · intro creator'
    simp [CreatePermission, h]
  · intro q hq
    simp only [applyCreate, CreatePermission, h] at hq
    rcases List.mem_map.mp hq with ⟨q0, hq0, rfl⟩
    exact ⟨q0, hq0, overrideRole_id .., overrideRole_creator ..,
      overrideRole_fileID .., overrideRole_userID ..⟩
  · intro q hq hkey
    simp only [applyCreate, CreatePermission, h]
    refine List.mem_map.mpr ⟨q, hq, ?_⟩
    simp [overrideRole, hkey]

/-- C3 witness: overriding the record (0, "f", "u", WRITE, "c1") with role
READ and a different creator "c2" yields the record with role READ, id 0
and creator "c1" unchanged. -/
theorem createPermission_override_role_only_witness :
    CreatePermission ⟨[⟨0, "f", "u", Role.WRITE, "c1"⟩], 1⟩ "f" "u" Role.READ "c2" true =
      Except.ok (⟨0, "f", "u", Role.READ, "c1"⟩,
        ⟨[⟨0, "f", "u", Role.WRITE, "c1"⟩].map (overrideRole "f" "u" Role.READ), 1⟩) ∧
    (Permission.mk 0 "f" "u" Role.READ "c1").id = 0 ∧
    (Permission.mk 0 "f" "u" Role.READ "c1").creator = "c1" ∧
    (∀ creator' : String,
      CreatePermission ⟨[⟨0, "f", "u", Role.WRITE, "c1"⟩], 1⟩ "f" "u" Role.READ "c2" true =
        CreatePermission ⟨[⟨0, "f", "u", Role.WRITE, "c1"⟩], 1⟩ "f" "u" Role.READ creator' true) ∧
    (∀ q ∈ (applyCreate ⟨[⟨0, "f", "u", Role.WRITE, "c1"⟩], 1⟩
        ⟨"f", "u", Role.READ, "c2", true⟩).records,
      ∃ q0 ∈ (⟨[⟨0, "f", "u", Role.WRITE, "c1"⟩], 1⟩ : Store).records,
        q.id = q0.id ∧ q.creator = q0.creator ∧
        q.fileID = q0.fileID ∧ q.userID = q0.userID) ∧
    (∀ q ∈ (⟨[⟨0, "f", "u", Role.WRITE, "c1"⟩], 1⟩ : Store).records,
      matchKey "f" "u" q = false →
      q ∈ (applyCreate ⟨[⟨0, "f", "u", Role.WRITE, "c1"⟩], 1⟩
        ⟨"f", "u", Role.READ, "c2", true⟩).records) :=
  createPermission_override_role_only ⟨[⟨0, "f", "u", Role.WRITE, "c1"⟩], 1⟩
    "f" "u" Role.READ "c2" ⟨0, "f", "u", Role.WRITE, "c1"⟩ (by decide)

/-- C4: in a store satisfying the uniqueness invariant, IsPermitted
returns true if and only if a record exists for (fileID, userID) whose
stored role is exactly the requested role — an exact-match check, so READ
against a stored WRITE (and vice versa) is false, and NONE is true only
when NONE was explicitly stored. -/
theorem isPermitted_iff_exact_role (s : Store) (fileID userID : String)
    (role : Role) (hu : UniqueKeys s) :
    IsPermitted s fileID userID role = true ↔
      ∃ p ∈ s.records, p.fileID = fileID ∧ p.userID = userID ∧ p.role = role := by
  unfold IsPermitted
  cases hfind : findPermission s fileID userID with
  | none =>
    simp only [Bool.false_eq_true, false_iff]
    rintro ⟨p, hp, hf, hus, _⟩
    exact List.find?_eq_none.mp hfind p hp (matchKey_iff.mpr ⟨hf, hus⟩)
  | some p =>
    have hkey := matchKey_iff.mp (List.find?_some hfind)
    have hmem := List.mem_of_find?_eq_some hfind
    simp only [decide_eq_true_eq]
    constructor
    · intro hrole
      exact ⟨p, hmem, hkey.1, hkey.2, hrole⟩
    · rintro ⟨q, hq, hf, hus, hrole⟩
      have : p = q :=
        key_eq_of_uniqueKeys hu hmem hq (hkey.1.trans hf.symm) (hkey.2.trans hus.symm)
      rw [this]
      exact hrole

/-- C4 witness: on a store holding a single WRITE record for ("f", "u"),
the exact-match characterisation holds for the requested role WRITE. -/
theorem isPermitted_iff_exact_role_witness :
    IsPermitted ⟨[⟨0, "f", "u", Role.WRITE, "c1"⟩], 1⟩ "f" "u" Role.WRITE = true ↔
      ∃ p ∈ (⟨[⟨0, "f", "u", Role.WRITE, "c1"⟩], 1⟩ : Store).records,
        p.fileID = "f" ∧ p.userID = "u" ∧ p.role = Role.WRITE :=
  isPermitted_iff_exact_role ⟨[⟨0, "f", "u", Role.WRITE, "c1"⟩], 1⟩ "f" "u" Role.WRITE
    (List.pairwise_singleton ..)

/-- C5: DeletePermission on a pair with no record fails with NotFound and
leaves the store unchanged; on an existing record it returns that record,
removes exactly the records matching the pair (under the uniqueness
invariant, exactly the found record), and a subsequent GetPermission on
the pair fails with NotFound. -/
theorem deletePermission_spec (s : Store) (fileID userID : String) :
    (findPermission s fileID userID = none →
      DeletePermission s fileID userID = Except.error CtrlError.notFound ∧
      deleteStep s fileID userID = s) ∧
    (∀ p, findPermission s fileID userID = some p →
      ∃ s', DeletePermission s fileID userID = Except.ok (p, s') ∧
        (∀ q, q ∈ s'.records ↔ q ∈ s.records ∧ matchKey fileID userID q = false) ∧
        (UniqueKeys s → ∀ q ∈ s.records, q ∉ s'.records → q = p) ∧
        GetPermission s' fileID userID = Except.error CtrlError.notFound) := by
  constructor
  · intro hnone
    constructor
    · simp [DeletePermission, hnone]
    · simp [deleteStep, DeletePermission, hnone]
  · intro p hfind
    refine ⟨⟨s.records.filter (fun q => ! matchKey fileID userID q), s.nextID⟩,
      by simp [DeletePermission, hfind], ?_, ?_, ?_⟩
    · intro q
      simp [List.mem_filter]
    · intro hu q hq hq'
      have hkey : matchKey fileID userID q = true := by
        by_contra hk
        exact hq' (List.mem_filter.mpr ⟨hq, by simp [Bool.eq_false_iff.mpr hk]⟩)
      have hkq := matchKey_iff.mp hkey
      have hkp := matchKey_iff.mp (List.find?_some hfind)
      exact key_eq_of_uniqueKeys hu hq (List.mem_of_find?_eq_some hfind)
        (hkq.1.trans hkp.1.symm) (hkq.2.trans hkp.2.symm)
    · have : findPermission
          ⟨s.records.filter (fun q => ! matchKey fileID userID q), s.nextID⟩
          fileID userID = none := by
        apply List.find?_eq_none.mpr
        intro q hq
        have := (List.mem_filter.mp hq).2
        simp only [Bool.not_eq_true'] at this
        simp [this]
      simp [GetPermission, this]

/-- C5 witness: deleting the sole record for ("f", "u") returns it, the
remaining store holds exactly the non-matching records, and GetPermission
then fails with NotFound. -/
theorem deletePermission_spec_witness :
    ∃ s', DeletePermission ⟨[⟨0, "f", "u", Role.WRITE, "c1"⟩], 1⟩ "f" "u" =
        Except.ok (⟨0, "f", "u", Role.WRITE, "c1"⟩, s') ∧
      (∀ q, q ∈ s'.records ↔
        q ∈ (⟨[⟨0, "f", "u", Role.WRITE, "c1"⟩], 1⟩ : Store).records ∧
        matchKey "f" "u" q = false) ∧
      (UniqueKeys ⟨[⟨0, "f", "u", Role.WRITE, "c1"⟩], 1⟩ →
        ∀ q ∈ (⟨[⟨0, "f", "u", Role.WRITE, "c1"⟩], 1⟩ : Store).records,
          q ∉ s'.records → q = ⟨0, "f", "u", Role.WRITE, "c1"⟩) ∧
      GetPermission s' "f" "u" = Except.error CtrlError.notFound :=
  (deletePermission_spec ⟨[⟨0, "f", "u", Role.WRITE, "c1"⟩], 1⟩ "f" "u").2
    ⟨0, "f", "u", Role.WRITE, "c1"⟩ (by decide)

/-- C6: DeleteFilePermissions removes every record of the file and returns
the removed records: their count equals the number of records the file had
before the call, a subsequent GetFilePermissions on the file is empty,
every removed record was a record of the file, records of other files are
untouched, and when the file had no records the result is the empty list,
not an error. -/
theorem deleteFilePermissions_spec (s : Store) (fileID : String) :
    ∃ removed s', DeleteFilePermissions s fileID = (removed, s') ∧
      removed.length = (s.records.filter (fun p => decide (p.fileID = fileID))).length ∧
      GetFilePermissions s' fileID = [] ∧
      (∀ q ∈ s'.records, q.fileID ≠ fileID) ∧
      (∀ q ∈ s.records, q.fileID ≠ fileID → q ∈ s'.records) ∧
      (∀ q ∈ removed, q ∈ s.records ∧ q.fileID = fileID) ∧
      ((∀ q ∈ s.records, q.fileID ≠ fileID) → removed = []) := by
  refine ⟨s.records.filter (fun p => decide (p.fileID = fileID)),
    ⟨s.records.filter (fun p => ! decide (p.fileID = fileID)), s.nextID⟩,
    rfl, rfl, ?_, ?_, ?_, ?_, ?_⟩
  · unfold GetFilePermissions
    have : (⟨s.records.filter (fun p => ! decide (p.fileID = fileID)), s.nextID⟩ :
        Store).records.filter (fun p => decide (p.fileID = fileID)) = [] := by
      apply List.filter_eq_nil_iff.mpr
      intro q hq
      have := (List.mem_filter.mp hq).2
      simp only [Bool.not_eq_true', decide_eq_false_iff_not] at this
      simpa using this
    rw [this]
    rfl
  · intro q hq
    have := (List.mem_filter.mp hq).2
    simpa using this
  · intro q hq hne
    exact List.mem_filter.mpr ⟨hq, by simpa using hne⟩
  · intro q hq
    have h := List.mem_filter.mp hq
    exact ⟨h.1, by simpa using h.2⟩
  · intro hnone
    apply List.filter_eq_nil_iff.mpr
    intro q hq
    simpa using hnone q hq

/-- C6 witness: on a store with one record for file "f" and one for file
"g", deleting file "f" removes exactly the "f" record and leaves file "f"
with no permissions. -/
theorem deleteFilePermissions_spec_witness :
    ∃ removed s',
      DeleteFilePermissions ⟨[⟨0, "f", "u", Role.WRITE, "c1"⟩,
        ⟨1, "g", "u", Role.READ, "c1"⟩], 2⟩ "f" = (removed, s') ∧
      removed.length = ((⟨[⟨0, "f", "u", Role.WRITE, "c1"⟩,
        ⟨1, "g", "u", Role.READ, "c1"⟩], 2⟩ : Store).records.filter
          (fun p => decide (p.fileID = "f"))).length ∧
      GetFilePermissions s' "f" = [] ∧
      (∀ q ∈ s'.records, q.fileID ≠ "f") ∧
      (∀ q ∈ (⟨[⟨0, "f", "u", Role.WRITE, "c1"⟩,
        ⟨1, "g", "u", Role.READ, "c1"⟩], 2⟩ : Store).records,
        q.fileID ≠ "f" → q ∈ s'.records) ∧
      (∀ q ∈ removed, q ∈ (⟨[⟨0, "f", "u", Role.WRITE, "c1"⟩,
        ⟨1, "g", "u", Role.READ, "c1"⟩], 2⟩ : Store).records ∧ q.fileID = "f") ∧
      ((∀ q ∈ (⟨[⟨0, "f", "u", Role.WRITE, "c1"⟩,
        ⟨1, "g", "u", Role.READ, "c1"⟩], 2⟩ : Store).records,
        q.fileID ≠ "f") → removed = []) :=
  deleteFilePermissions_spec ⟨[⟨0, "f", "u", Role.WRITE, "c1"⟩,
    ⟨1, "g", "u", Role.READ, "c1"⟩], 2⟩ "f"

/-- C7: HealthCheck is a total boolean function of the store's probe
behaviour — it never raises — and it returns true exactly when the store
answers the liveness probe within the timeout; every error or timeout
yields false. -/
theorem healthCheck_true_iff (timeoutSecs : Nat) (probe : StoreProbe) :
    HealthCheck timeoutSecs probe = true ↔
      ∃ l, probe = StoreProbe.answered l ∧ l ≤ timeoutSecs := by
  cases probe with
  | answered l =>
    simp only [HealthCheck, decide_eq_true_eq]
    constructor
    · intro h
      exact ⟨l, rfl, h⟩
    · rintro ⟨l', hl', h⟩
      cases hl'
      exact h
  | errored =>
    simp only [HealthCheck, Bool.false_eq_true, false_iff]
    rintro ⟨l, h, _⟩
    cases h

theorem workerTrace_length (cfg : WorkerConfig) (probes : Nat → Bool) (n : Nat) :
    (workerTrace cfg probes n).length = 3 * n := by
  induction n with
  | zero => rfl
  | succ k ih =>
    rw [workerTrace, List.length_append, ih]
    simp [iterEvents]
    omega

theorem workerTrace_sleep_count (cfg : WorkerConfig) (probes : Nat → Bool) (n : Nat) :
    (workerTrace cfg probes n).count (WEvent.sleep cfg.healthCheckInterval) = n := by
  induction n with
  | zero => rfl
  | succ k ih =>
    rw [workerTrace, List.count_append, ih]
    simp [iterEvents, List.count_cons]

theorem workerTrace_sleep_mem (cfg : WorkerConfig) (probes : Nat → Bool) (n : Nat)
    (secs : Nat) (h : WEvent.sleep secs ∈ workerTrace cfg probes n) :
    secs = cfg.healthCheckInterval := by
  induction n with
  | zero => cases h
  | succ k ih =>
    rw [workerTrace] at h
    rcases List.mem_append.mp h with h | h
    · exact ih h
    · simpa [iterEvents] using h

theorem workerTrace_probe_mem (cfg : WorkerConfig) (probes : Nat → Bool) (n : Nat)
    (t : Nat) (h : WEvent.probe t ∈ workerTrace cfg probes n) :
    t = cfg.pingTimeoutSecs := by
  induction n with
  | zero => cases h
  | succ k ih =>
    rw [workerTrace] at h
    rcases List.mem_append.mp h with h | h
    · exact ih h
    · simpa [iterEvents] using h

theorem workerTrace_starts_with_probe (cfg : WorkerConfig) (probes : Nat → Bool)
    (n : Nat) :
    workerTrace cfg probes n = [] ∨
    ∃ rest, workerTrace cfg probes n = WEvent.probe cfg.pingTimeoutSecs :: rest := by
  induction n with
  | zero => exact Or.inl rfl
  | succ k ih =>
    rcases ih with h | ⟨rest, h⟩
    · right
      rw [workerTrace, h]
      exact ⟨_, rfl⟩
    · right
      rw [workerTrace, h]
      exact ⟨rest ++ iterEvents cfg probes k, rfl⟩

/-- C8: on every iteration of the health worker loop the published status
becomes SERVING exactly when that iteration's probe returned true and
NOT_SERVING when it returned false, whatever the history (no hysteresis:
one probe result determines the published state); and the loop never
terminates on its own, every iteration contributing its fixed events —
exactly one sleep, always of the configured interval. -/
theorem healthWorker_publish_follows_probe (cfg : WorkerConfig)
    (probes : Nat → Bool) (n : Nat) :
    statusAfter probes (n + 1) =
      some (if probes n then ServingStatus.serving else ServingStatus.notServing) ∧
    (workerTrace cfg probes (n + 1)).length = 3 * (n + 1) ∧
    (workerTrace cfg probes (n + 1)).count (WEvent.sleep cfg.healthCheckInterval) =
      n + 1 ∧
    (∀ secs, WEvent.sleep secs ∈ workerTrace cfg probes (n + 1) →
      secs = cfg.healthCheckInterval) :=
  ⟨rfl, workerTrace_length cfg probes (n + 1),
    workerTrace_sleep_count cfg probes (n + 1),
    fun secs h => workerTrace_sleep_mem cfg probes (n + 1) secs h⟩

/-- C8 witness: with every probe succeeding, after the first iteration the
published status is SERVING, the one-iteration trace has its three events
with exactly one sleep at the configured interval. -/
theorem healthWorker_publish_follows_probe_witness :
    statusAfter (fun _ => true) 1 = some ServingStatus.serving ∧
    (workerTrace defaultConfig (fun _ => true) 1).length = 3 * 1 ∧
    (workerTrace defaultConfig (fun _ => true) 1).count
      (WEvent.sleep defaultConfig.healthCheckInterval) = 1 ∧
    (∀ secs, WEvent.sleep secs ∈ workerTrace defaultConfig (fun _ => true) 1 →
      secs = defaultConfig.healthCheckInterval) :=
  healthWorker_publish_follows_probe defaultConfig (fun _ => true) 0

/-- C9: before the worker's first probe completes, the worker has
published no status — the register is still unset after zero iterations,
and the event trace of any number of iterations is either empty or starts
with the first probe, so no publish precedes the first probe; within the
first iteration the publish comes strictly after the probe. -/
theorem healthStatus_unset_before_first_probe (cfg : WorkerConfig)
    (probes : Nat → Bool) :
    statusAfter probes 0 = none ∧
    (∀ n, workerTrace cfg probes n = [] ∨
      ∃ rest, workerTrace cfg probes n =
        WEvent.probe cfg.pingTimeoutSecs :: rest) ∧
    workerTrace cfg probes 1 =
      [WEvent.probe cfg.pingTimeoutSecs,
       WEvent.publish
         (if probes 0 then ServingStatus.serving else ServingStatus.notServing),
       WEvent.sleep cfg.healthCheckInterval] :=
  ⟨rfl, workerTrace_starts_with_probe cfg probes, rfl⟩

/-- C10: the worker's very first action is a probe (before any interval
sleep), every probe of the trace uses the configured ping timeout, and the
defaults set in `init()` are a 10-second ping timeout and a 3-second loop
interval, two independently configured values. -/
theorem healthWorker_probe_first_with_ping_timeout (cfg : WorkerConfig)
    (probes : Nat → Bool) :
    (workerTrace cfg probes 1).head? = some (WEvent.probe cfg.pingTimeoutSecs) ∧
    (∀ n t, WEvent.probe t ∈ workerTrace cfg probes n → t = cfg.pingTimeoutSecs) ∧
    defaultConfig.pingTimeoutSecs = 10 ∧
    defaultConfig.healthCheckInterval = 3 :=
  ⟨rfl, fun n t h => workerTrace_probe_mem cfg probes n t h, rfl, rfl⟩

/-- C10 witness: at the default configuration with every probe failing,
the first event is the 10-second probe, every probe of the two-iteration
trace uses the 10-second timeout, and the defaults are 10 and 3. -/
theorem healthWorker_probe_first_with_ping_timeout_witness :
    (workerTrace defaultConfig (fun _ => false) 1).head? =
      some (WEvent.probe defaultConfig.pingTimeoutSecs) ∧
    (∀ n t, WEvent.probe t ∈ workerTrace defaultConfig (fun _ => false) n →
      t = defaultConfig.pingTimeoutSecs) ∧
    defaultConfig.pingTimeoutSecs = 10 ∧
    defaultConfig.healthCheckInterval = 3 :=
  healthWorker_probe_first_with_ping_timeout defaultConfig (fun _ => false)

end PermissionService
